import Mathlib

/-!
Shallow embedding of the `drake::perception::PointCloud` container
(`point_cloud.cc`) and its operations, for checking the repository's
specification against the code.

Modelling conventions:
* The element types `T` (float), `C` (color channel) and `D` (descriptor
  scalar) are modelled by exact rationals wrapped in `Val`, whose extra
  constructor `undef` stands for every non-finite or indeterminate machine
  value (NaN, plus/minus infinity, and uninitialized storage).  All numeric
  casts between element types are modelled as the identity; round-off of
  machine arithmetic is abstracted away.
* Eigen column-major buffers become Lean lists of columns; a 3-row column is
  a `Vec3` of `Val`s, a descriptor column a `List Val`.
* A thrown C++ exception or a failed `DRAKE_DEMAND` becomes an `Err` value;
  `SetFrom`, whose receiver may be visibly mutated before a throw, returns
  the receiver's final observable state together with an optional error.
* `absl::flat_hash_map` (unspecified iteration order) is modelled as an
  association list in first-insertion order, one admissible order.
-/

/-- Exact rational addition, spelled through `mkRat` (equal to `+` on `ℚ` by
`ratAdd_eq_add`) so that concrete witness computations reduce in the kernel
— the library's `Rat.add` is irreducible. -/
def ratAdd (a b : ℚ) : ℚ := mkRat (a.num * b.den + b.num * a.den) (a.den * b.den)

/-- Exact rational subtraction through `mkRat`; equal to `-` on `ℚ`. -/
def ratSub (a b : ℚ) : ℚ := mkRat (a.num * b.den - b.num * a.den) (a.den * b.den)

/-- Exact rational division through `Rat.divInt`; equal to `/` on `ℚ`. -/
def ratDiv (a b : ℚ) : ℚ := Rat.divInt (a.num * b.den) (a.den * b.num)

/-- Exact division of a rational by a natural count through `mkRat`; equal to
`q / n` on `ℚ`. -/
def ratDivNat (q : ℚ) (n : ℕ) : ℚ := mkRat q.num (q.den * n)

/-- Machine scalar: a finite rational, or `undef` for any non-finite or
uninitialized value (NaN, infinities, garbage from skipped initialization). -/
inductive Val where
  | fin (q : ℚ)
  | undef
  deriving DecidableEq, Repr

/-- `isFinite` of a machine scalar, as tested by `isFinite()` in the source. -/
def Val.isFinite : Val → Bool
  | .fin _ => true
  | .undef => false

/-- Addition of machine scalars: any non-finite operand poisons the result
(IEEE NaN propagation; adding to an accumulator). -/
def Val.add : Val → Val → Val
  | .fin a, .fin b => .fin (ratAdd a b)
  | _, _ => Val.undef

/-- Division of an accumulated machine scalar by an integer count.  Division
by a zero count models IEEE `0.0 / 0` (or `x / 0`), which is non-finite. -/
def Val.divNat : Val → ℕ → Val
  | .fin q, (n + 1) => .fin (ratDivNat q (n + 1))
  | _, _ => Val.undef

/-- A 3-row column (one point's position, normal, or color). -/
structure Vec3 where
  x : Val
  y : Val
  z : Val
  deriving DecidableEq, Repr

/-- The all-`undef` column (uninitialized storage). -/
def undefV : Vec3 := ⟨.undef, .undef, .undef⟩

/-- `xyz(i).array().isFinite().all()` from the source. -/
def Vec3.isFiniteAll (v : Vec3) : Bool :=
  v.x.isFinite && v.y.isFinite && v.z.isFinite

/-- The rational triple of a column when all three entries are finite. -/
def Vec3.fin? : Vec3 → Option (ℚ × ℚ × ℚ)
  | ⟨.fin a, .fin b, .fin c⟩ => some (a, b, c)
  | _ => none

/-- Componentwise `Val` addition of 3-columns. -/
def vAdd (a b : Vec3) : Vec3 := ⟨a.x.add b.x, a.y.add b.y, a.z.add b.z⟩

/-- Componentwise division of a 3-column accumulator by a count. -/
def vDivNat (a : Vec3) (n : ℕ) : Vec3 := ⟨a.x.divNat n, a.y.divNat n, a.z.divNat n⟩

/-- The zero 3-column (`Eigen::Vector3d::Zero()` accumulator start). -/
def zeroV : Vec3 := ⟨.fin 0, .fin 0, .fin 0⟩

/-- Modelled from the spec: the header `point_cloud_flags.h` defining
`pc_flags::Fields` is not under `src/`.  Per the spec's data model, a field
set is a bitmask over Positions (`xyzs`), Normals, Colors (`rgbs`) and the
reserved `Inherit` marker, plus at most one descriptor kind carrying a fixed
dimensionality. -/
structure Fields where
  xyzs : Bool
  normals : Bool
  rgbs : Bool
  inherit : Bool
  descriptor : Option ℕ
  deriving DecidableEq, Repr

/-- `pc_flags::kNone`: the empty field set. -/
def kNone : Fields := ⟨false, false, false, false, none⟩

/-- `pc_flags::kInherit`: the reserved request-time-only sentinel. -/
def kInherit : Fields := ⟨false, false, false, true, none⟩

/-- `pc_flags::kXYZs` as a field set. -/
def kXYZs : Fields := ⟨true, false, false, false, none⟩

/-- `Fields::contains`: bitmask containment, plus descriptor-kind agreement
when the right-hand side requests a descriptor. -/
def Fields.contains (a b : Fields) : Bool :=
  (!b.xyzs || a.xyzs) && (!b.normals || a.normals) && (!b.rgbs || a.rgbs) &&
    (!b.inherit || a.inherit) && (b.descriptor == none || a.descriptor == b.descriptor)

/-- `Fields::has_descriptor`. -/
def Fields.hasDescriptor (a : Fields) : Bool := a.descriptor.isSome

/-- The dimensionality of the descriptor kind (`descriptor_type().size()`),
`0` when no descriptor is present. -/
def Fields.descriptorDim (a : Fields) : ℕ := a.descriptor.getD 0

/-- Errors: each C++ `throw` site or `DRAKE_DEMAND`/`DRAKE_THROW_UNLESS`
failure in the source is mapped to one of these. -/
inductive Err where
  | invalidArgument
  | reservedFieldSet
  | missingFields
  | fieldMismatch
  | sizeMismatch
  | demandFailure
  deriving DecidableEq, Repr

/-- A point cloud: declared field set, point count, and one list of columns
per field.  Buffers of absent fields are empty lists (the source's Storage
never resizes them).  The source maintains the invariant that each present
buffer has exactly `size` columns. -/
structure PointCloud where
  fields : Fields
  size : ℕ
  xyzs : List Vec3
  normals : List Vec3
  rgbs : List Vec3
  descriptors : List (List Val)
  deriving DecidableEq, Repr

/-- Modelled from the spec: `PointCloud::kDefaultValue` lives in the header,
which is not under `src/`; the spec fixes the default for
Positions/Normals/Descriptors at zero. -/
def kDefaultValue : Val := .fin 0

/-- Modelled from the spec: `PointCloud::kDefaultColor` lives in the header,
which is not under `src/`; the spec only says "a defined default color",
modelled here as channel value zero. -/
def kDefaultColor : Val := .fin 0

/-- The default 3-column for Positions and Normals. -/
def defaultV : Vec3 := ⟨kDefaultValue, kDefaultValue, kDefaultValue⟩

/-- The default color column. -/
def defaultColorV : Vec3 := ⟨kDefaultColor, kDefaultColor, kDefaultColor⟩

/-- `ref.middleCols(start, num).setConstant(value)`: replace the columns with
indices in `[start, start + num)` by `v`. -/
def fillCols : List α → ℕ → ℕ → α → List α
  | [], _, _, _ => []
  | l, 0, 0, _ => l
  | _ :: xs, 0, num + 1, v => v :: fillCols xs 0 num v
  | x :: xs, s + 1, num, v => x :: fillCols xs s num v

/-- `PointCloud::SetDefault(start, num)`: for every present field, set the
columns `[start, start + num)` to the documented default. -/
def setDefault (start num : ℕ) (c : PointCloud) : PointCloud :=
  { c with
    xyzs := if c.fields.xyzs then fillCols c.xyzs start num defaultV else c.xyzs
    normals := if c.fields.normals then fillCols c.normals start num defaultV else c.normals
    rgbs := if c.fields.rgbs then fillCols c.rgbs start num defaultColorV else c.rgbs
    descriptors :=
      if c.fields.hasDescriptor then
        fillCols c.descriptors start num (List.replicate c.fields.descriptorDim kDefaultValue)
      else c.descriptors }

/-- The `Storage` constructor: every present buffer gets `n` uninitialized
columns (the storage "is not responsible for initializing default values"). -/
def rawCloud (n : ℕ) (f : Fields) : PointCloud :=
  { fields := f
    size := n
    xyzs := if f.xyzs then List.replicate n undefV else []
    normals := if f.normals then List.replicate n undefV else []
    rgbs := if f.rgbs then List.replicate n undefV else []
    descriptors :=
      if f.hasDescriptor then List.replicate n (List.replicate f.descriptorDim Val.undef)
      else [] }

/-- `PointCloud::PointCloud(int new_size, pc_flags::Fields fields, bool
skip_initialize)`.  Throws on the `kNone` field set and on any field set
containing `kInherit`.  A negative size is modelled from the spec as an
`InvalidArgument` failure (the source delegates the negative case to Eigen's
internal assertion, which is outside `src/`). -/
def mkPointCloud (count : ℤ) (f : Fields) (skip : Bool) : Except Err PointCloud :=
  if f = kNone then .error .reservedFieldSet
  else if f.contains kInherit then .error .reservedFieldSet
  else if count < 0 then .error .invalidArgument
  else .ok (if skip then rawCloud count.toNat f
            else setDefault 0 count.toNat (rawCloud count.toNat f))

/-- `conservativeResize(NoChange, n)` on one buffer: keep the overlapping
column range, append uninitialized columns when growing. -/
def conservativeResizeList (l : List α) (n : ℕ) (pad : α) : List α :=
  l.take n ++ List.replicate (n - l.length) pad

/-- `Storage::resize(new_size)`: conservatively resize every present buffer
(and record the new size). -/
def storageResize (c : PointCloud) (n : ℕ) : PointCloud :=
  { c with
    size := n
    xyzs := if c.fields.xyzs then conservativeResizeList c.xyzs n undefV else c.xyzs
    normals := if c.fields.normals then conservativeResizeList c.normals n undefV else c.normals
    rgbs := if c.fields.rgbs then conservativeResizeList c.rgbs n undefV else c.rgbs
    descriptors :=
      if c.fields.hasDescriptor then
        conservativeResizeList c.descriptors n (List.replicate c.fields.descriptorDim Val.undef)
      else c.descriptors }

/-- `PointCloud::resize(new_size, skip_initialization)` for a non-negative
size: resize storage; when growing without `skip_initialization`, default-fill
exactly the added column range. -/
def resizeNat (c : PointCloud) (n : ℕ) (skip : Bool) : PointCloud :=
  let old := c.size
  let c' := storageResize c n
  if old < n && !skip then setDefault old (n - old) c' else c'

/-- `PointCloud::resize` including the `DRAKE_DEMAND(new_size >= 0)` guard. -/
def pcResize (c : PointCloud) (n : ℤ) (skip : Bool) : Except Err PointCloud :=
  if n < 0 then .error .demandFailure
  else .ok (resizeNat c n.toNat skip)

/-- `PointCloud::Expand(add_size, skip_initialization)`. -/
def expand (c : PointCloud) (add : ℤ) (skip : Bool) : Except Err PointCloud :=
  if add < 0 then .error .demandFailure
  else .ok (resizeNat c (c.size + add.toNat) skip)

/-- `PointCloud::HasFields` / `RequireFields`: `HasFields` demands the query
does not mention `kInherit`, then tests containment; `RequireFields` throws
`MissingFields` when containment fails. -/
def requireFields (c : PointCloud) (f : Fields) : Option Err :=
  if f.contains kInherit then some .demandFailure
  else if c.fields.contains f then none
  else some .missingFields

/-- `PointCloud::RequireExactFields`: throws unless the field sets are equal. -/
def requireExactFields (c : PointCloud) (f : Fields) : Option Err :=
  if c.fields = f then none else some .fieldMismatch

/-- `ResolvePairFields(a, b, fields)` from the anonymous namespace: `kInherit`
demands exactly equal field sets and resolves to them; otherwise both clouds
must contain the requested fields, which are resolved as given. -/
def resolvePairFields (a b : PointCloud) (f : Fields) : Except Err Fields :=
  if f = kInherit then
    match requireExactFields a b.fields with
    | some e => .error e
    | none => .ok a.fields
  else
    match requireFields a f with
    | some e => .error e
    | none =>
      match requireFields b f with
      | some e => .error e
      | none => .ok f

/-- The field-resolution-and-copy tail of `PointCloud::SetFrom` (everything
after the resize step): on successful resolution, the resolved fields' buffers
are copied wholesale from `b` (sizes already agree). -/
def setFromCopy (a b : PointCloud) (fieldsIn : Fields) : PointCloud × Option Err :=
  match resolvePairFields a b fieldsIn with
  | .error e => (a, some e)
  | .ok fr =>
    let a' : PointCloud :=
      { a with
        xyzs := if fr.xyzs then b.xyzs else a.xyzs
        normals := if fr.normals then b.normals else a.normals
        rgbs := if fr.rgbs then b.rgbs else a.rgbs
        descriptors := if fr.hasDescriptor then b.descriptors else a.descriptors }
    (a', none)

/-- `PointCloud::SetFrom(other, fields_in, allow_resize)`.  Returns the
receiver's observable state after the call together with the thrown error, if
any: with `allow_resize` the receiver is resized (with default initialization
of grown columns) *before* field resolution, so a later failure leaves the
resize in place. -/
def setFrom (a b : PointCloud) (fieldsIn : Fields) (allowResize : Bool) :
    PointCloud × Option Err :=
  if allowResize then setFromCopy (resizeNat a b.size false) b fieldsIn
  else if b.size ≠ a.size then (a, some .sizeMismatch)
  else setFromCopy a b fieldsIn

/-- `PointCloud::operator=(const PointCloud&)`: `SetFrom(other)` with the
declared defaults `fields_in = kInherit`, `allow_resize = true`. -/
def copyAssign (a b : PointCloud) : PointCloud × Option Err :=
  setFrom a b kInherit true

/-- `ResolveFields(other, fields)` from the anonymous namespace. -/
def resolveFields (other : PointCloud) (f : Fields) : Fields :=
  if f = kInherit then other.fields else f

/-- `PointCloud::PointCloud(const PointCloud& other, pc_flags::Fields
copy_fields)`: construct with the resolved fields at `other`'s size, then
`SetFrom(other)` (defaults `kInherit`, `allow_resize = true`).  A throw from
either step means no object is produced. -/
def pointCloudCopy (other : PointCloud) (copyFields : Fields) : Except Err PointCloud :=
  match mkPointCloud (other.size : ℤ) (resolveFields other copyFields) false with
  | .error e => .error e
  | .ok c =>
    match setFrom c other kInherit true with
    | (c', none) => .ok c'
    | (_, some e) => .error e

/-- `PointCloud::operator=(PointCloud&&)`: requires exactly equal field sets,
swaps storages and sizes, then resizes the source to zero (leaving it a valid
empty cloud with its original field set).  Returns (receiver, source). -/
def moveAssign (a b : PointCloud) : Except Err (PointCloud × PointCloud) :=
  match requireExactFields a b.fields with
  | some e => .error e
  | none =>
    let receiver : PointCloud := { b with fields := a.fields }
    let source : PointCloud :=
      resizeNat { a with fields := b.fields, size := b.size } 0 false
    .ok (receiver, source)

/-- One comparison `(xyz.array() >= lower.array() && xyz.array() <=
upper.array()).all()` from `Crop`.  A column with any non-finite entry fails
the conjunction for every finite bound (NaN comparisons are false; an
infinity violates one of the two finite bounds). -/
def inBox (v : Vec3) (lo hi : ℚ × ℚ × ℚ) : Bool :=
  match v.fin? with
  | some p =>
    decide (lo.1 ≤ p.1) && decide (p.1 ≤ hi.1) &&
      decide (lo.2.1 ≤ p.2.1) && decide (p.2.1 ≤ hi.2.1) &&
      decide (lo.2.2 ≤ p.2.2) && decide (p.2.2 ≤ hi.2.2)
  | none => false

/-- `xyz(i)`: the position column of point `i`. -/
def ptOf (c : PointCloud) (i : ℕ) : Vec3 := c.xyzs.getD i undefV

/-- `PointCloud::Crop(lower_xyz, upper_xyz)`.  Demands the bounds are ordered,
requires positions.  The source preallocates a skip-initialized cloud of the
full size, writes the kept points' columns consecutively in scan order, and
truncates to the number kept; the written-then-truncated buffer is exactly the
in-order filter below. -/
def crop (c : PointCloud) (lo hi : ℚ × ℚ × ℚ) : Except Err PointCloud :=
  if !(decide (lo.1 ≤ hi.1) && decide (lo.2.1 ≤ hi.2.1) && decide (lo.2.2 ≤ hi.2.2)) then
    .error .demandFailure
  else if !c.fields.xyzs then .error .missingFields
  else
    match mkPointCloud (c.size : ℤ) c.fields true with
    | .error e => .error e
    | .ok cr =>
      let keep := (List.range c.size).filter (fun i => inBox (ptOf c i) lo hi)
      .ok { cr with
        size := keep.length
        xyzs := keep.map (fun i => ptOf c i)
        normals :=
          if c.fields.normals then keep.map (fun i => c.normals.getD i undefV) else cr.normals
        rgbs :=
          if c.fields.rgbs then keep.map (fun i => c.rgbs.getD i undefV) else cr.rgbs
        descriptors :=
          if c.fields.hasDescriptor then keep.map (fun i => c.descriptors.getD i [])
          else cr.descriptors }

/-- Free function `Concatenate(clouds)`.  Demands a non-empty input, throws
unless every cloud's field set equals the first's, and preallocates a
skip-initialized result.  NOTE the source's defect, reproduced here: the copy
of the position columns is guarded by `new_cloud.has_normals()` (not
`has_xyzs()`), so position data is copied only when normals are present, and
the `mutable_xyzs()` access inside that branch aborts when normals are
present without positions.  Contiguous `middleCols` writes of every input in
order equal the flattened column lists (present buffers hold exactly
`size` columns). -/
def concatenate (clouds : List PointCloud) : Except Err PointCloud :=
  match clouds with
  | [] => .error .demandFailure
  | c0 :: rest =>
    if rest.all (fun c => c.fields == c0.fields) then
      let count : ℕ := clouds.foldl (fun s c => s + c.size) 0
      match mkPointCloud (count : ℤ) c0.fields true with
      | .error e => .error e
      | .ok nc =>
        if nc.fields.normals && !nc.fields.xyzs then .error .demandFailure
        else
          .ok { nc with
            xyzs := if nc.fields.normals then (clouds.map (fun c => c.xyzs)).flatten else nc.xyzs
            normals :=
              if nc.fields.normals then (clouds.map (fun c => c.normals)).flatten else nc.normals
            rgbs := if nc.fields.rgbs then (clouds.map (fun c => c.rgbs)).flatten else nc.rgbs
            descriptors :=
              if nc.fields.hasDescriptor then (clouds.map (fun c => c.descriptors)).flatten
              else nc.descriptors }
    else .error .fieldMismatch

/-- Integer voxel key (`Eigen::Vector3i`). -/
abbrev Key := ℤ × ℤ × ℤ

/-- The voxel map: association list from key to the bucket of point indices,
in first-insertion order (one admissible `flat_hash_map` iteration order). -/
abbrev VoxelMap := List (Key × List ℕ)

/-- `voxel_map[key].emplace_back(i)`: append `i` to the bucket of `key`,
creating the bucket at the end when the key is new. -/
def mapInsert : VoxelMap → Key → ℕ → VoxelMap
  | [], k, i => [(k, [i])]
  | (k', l) :: rest, k, i =>
    if k' = k then (k', l ++ [i]) :: rest
    else (k', l) :: mapInsert rest k i

/-- Lookup of a bucket by key (empty when absent). -/
def findBucket : VoxelMap → Key → List ℕ
  | [], _ => []
  | (k', l) :: rest, k => if k' = k then l else findBucket rest k

/-- The keys of a voxel map, in map order. -/
def mapKeys (m : VoxelMap) : List Key := m.map (fun e => e.1)

/-- The indices of the points assigned key `k` by `κ`, in increasing index
order: the extensional description of one voxel's bucket. -/
def voxelBucket (κ : ℕ → Option Key) (n : ℕ) (k : Key) : List ℕ :=
  (List.range n).filter (fun i => decide (κ i = some k))

/-- `.cast<int>()` on a float scalar: truncation toward zero. -/
def truncQ (q : ℚ) : ℤ := if 0 ≤ q then ⌊q⌋ else ⌈q⌉

/-- The running per-axis minimum over the fully finite columns of
`f 0, …, f (n-1)` (the source's fold starting at `+infinity`; `none` models
the untouched infinite initial value, reached only when no column is fully
finite). -/
def lowerFold (f : ℕ → Vec3) (n : ℕ) : Option (ℚ × ℚ × ℚ) :=
  (List.range n).foldl
    (fun acc i =>
      match (f i).fin? with
      | some p =>
        match acc with
        | none => some p
        | some l => some (min l.1 p.1, min l.2.1 p.2.1, min l.2.2 p.2.2)
      | none => acc)
    none

/-- The per-axis minimum of the cloud's fully finite positions. -/
def lowerOf (c : PointCloud) : Option (ℚ × ℚ × ℚ) :=
  lowerFold (ptOf c) c.size

/-- `((xyz(i) - lower_xyz) / voxel_size).cast<int>()` for a fully finite
point, `none` for a point excluded by the finiteness filter. -/
def keyOf (c : PointCloud) (vs : ℚ) (i : ℕ) : Option Key :=
  match (ptOf c i).fin? with
  | some p =>
    let l := (lowerOf c).getD (0, 0, 0)
    some (truncQ (ratDiv (ratSub p.1 l.1) vs), truncQ (ratDiv (ratSub p.2.1 l.2.1) vs),
      truncQ (ratDiv (ratSub p.2.2 l.2.2) vs))
  | none => none

/-- Generic construction of a voxel map by successive insertion. -/
def buildMap (κ : ℕ → Option Key) (l : List ℕ) : VoxelMap :=
  l.foldl
    (fun m i =>
      match κ i with
      | some k => mapInsert m k i
      | none => m)
    []

/-- The voxel map built by the bucketing loop of `VoxelizedDownSample`. -/
def voxelMapOf (c : PointCloud) (vs : ℚ) : VoxelMap :=
  buildMap (keyOf c vs) (List.range c.size)

/-- Per-bucket position output: the higher-precision accumulation loop
`xyz += xyzs().col(j)` followed by `xyz / indices_in_this.size()`. -/
def bucketPosMean (c : PointCloud) (idxs : List ℕ) : Vec3 :=
  vDivNat (idxs.foldl (fun s i => vAdd s (ptOf c i)) zeroV) idxs.length

/-- Per-bucket normal output: only columns passing `isFinite().all()` are
accumulated and counted (a single pass with a running count; equivalently the
in-order finite sublist), then divided by that count. -/
def bucketNormalMean (c : PointCloud) (idxs : List ℕ) : Vec3 :=
  let fins := idxs.filter (fun i => (c.normals.getD i undefV).isFiniteAll)
  vDivNat (fins.foldl (fun s i => vAdd s (c.normals.getD i undefV)) zeroV) fins.length

/-- Per-bucket color output: every column is accumulated; divided by the
bucket size. -/
def bucketRgbMean (c : PointCloud) (idxs : List ℕ) : Vec3 :=
  vDivNat (idxs.foldl (fun s i => vAdd s (c.rgbs.getD i undefV)) zeroV) idxs.length

/-- Componentwise `Val` addition of descriptor columns. -/
def colAdd (a b : List Val) : List Val := a.zipWith Val.add b

/-- Componentwise division of a descriptor accumulator by a count. -/
def colDivNat (a : List Val) (n : ℕ) : List Val := a.map (fun v => v.divNat n)

/-- Per-bucket descriptor output: only fully finite descriptor columns are
accumulated and counted, then divided by that count. -/
def bucketDescMean (c : PointCloud) (dim : ℕ) (idxs : List ℕ) : List Val :=
  let fins := idxs.filter (fun i => (c.descriptors.getD i []).all Val.isFinite)
  colDivNat (fins.foldl (fun s i => colAdd s (c.descriptors.getD i []))
      (List.replicate dim kDefaultValue))
    fins.length

/-- `PointCloud::VoxelizedDownSample(voxel_size)`: requires positions and a
positive voxel size, buckets the fully finite points by integer voxel key,
then emits one averaged point per occupied voxel, in map order. -/
def voxelizedDownSample (c : PointCloud) (vs : ℚ) : Except Err PointCloud :=
  if !c.fields.xyzs then .error .missingFields
  else if vs ≤ 0 then .error .invalidArgument
  else
    let m := voxelMapOf c vs
    match mkPointCloud (m.length : ℤ) c.fields false with
    | .error e => .error e
    | .ok ds =>
      .ok { ds with
        xyzs := m.map (fun e => bucketPosMean c e.2)
        normals :=
          if c.fields.normals then m.map (fun e => bucketNormalMean c e.2) else ds.normals
        rgbs := if c.fields.rgbs then m.map (fun e => bucketRgbMean c e.2) else ds.rgbs
        descriptors :=
          if c.fields.hasDescriptor then
            m.map (fun e => bucketDescMean c c.fields.descriptorDim e.2)
          else ds.descriptors }

/-- The cloud whose every present buffer is default-filled: the result of
non-skipped construction. -/
def defaultCloud (n : ℕ) (f : Fields) : PointCloud :=
  { fields := f
    size := n
    xyzs := if f.xyzs then List.replicate n defaultV else []
    normals := if f.normals then List.replicate n defaultV else []
    rgbs := if f.rgbs then List.replicate n defaultColorV else []
    descriptors :=
      if f.hasDescriptor then
        List.replicate n (List.replicate f.descriptorDim kDefaultValue)
      else [] }

/-- A finite 3-column. -/
def qv (a b c : ℚ) : Vec3 := ⟨.fin a, .fin b, .fin c⟩

/-- The field set holding Positions and Normals. -/
def fXN : Fields := ⟨true, true, false, false, none⟩

/-- The field set holding Positions and Colors (the spec's move example). -/
def fPosColor : Fields := ⟨true, false, true, false, none⟩

/-- A positions-only cloud of size 3 (the spec's `A` for `Concatenate`). -/
def exA : PointCloud := ⟨kXYZs, 3, [qv 1 0 0, qv 2 0 0, qv 3 0 0], [], [], []⟩

/-- A positions-only cloud of size 2 (the spec's `B` for `Concatenate`). -/
def exB : PointCloud := ⟨kXYZs, 2, [qv 4 0 0, qv 5 0 0], [], [], []⟩

/-- A size-1 cloud with Positions and Normals. -/
def exXN1 : PointCloud := ⟨fXN, 1, [qv 1 0 0], [qv 0 0 1], [], []⟩

/-- A size-2 cloud with Positions and Normals. -/
def exXN2 : PointCloud := ⟨fXN, 2, [qv 1 0 0, qv 2 0 0], [qv 0 0 1, qv 0 1 0], [], []⟩

/-- A positions-only cloud of size 1. -/
def exPos1 : PointCloud := ⟨kXYZs, 1, [qv 7 7 7], [], [], []⟩

/-- A size-1 cloud with Positions and Colors. -/
def exMA : PointCloud := ⟨fPosColor, 1, [qv 9 9 9], [], [qv 1 2 3], []⟩

/-- A size-2 cloud with Positions and Colors. -/
def exMB : PointCloud := ⟨fPosColor, 2, [qv 1 1 1, qv 2 2 2], [], [qv 0 0 0, qv 5 5 5], []⟩

/-- The spec's `Crop` example: 4 points at `(1/2,1/2,1/2)`, `(2,2,2)`,
`(0,0,0)`, `(1,1,1)` (the spec writes the first point as `0.5`). -/
def exCrop : PointCloud :=
  ⟨kXYZs, 4, [qv (mkRat 1 2) (mkRat 1 2) (mkRat 1 2), qv 2 2 2, qv 0 0 0, qv 1 1 1], [], [], []⟩

/-- The spec's downsampling example: three points at `x = 1/10, 1/5, 5`
(the spec writes them as `0.1`, `0.2`, `5`). -/
def exVox : PointCloud :=
  ⟨kXYZs, 3, [qv (mkRat 1 10) 0 0, qv (mkRat 1 5) 0 0, qv 5 0 0], [], [], []⟩

/-- A cloud with one finite position and a non-finite normal. -/
def exNaN : PointCloud := ⟨fXN, 1, [qv 0 0 0], [⟨.undef, .fin 0, .fin 0⟩], [], []⟩

/-! ### Lemmas and claim theorems -/

theorem setDefault_fields (s n : ℕ) (c : PointCloud) : (setDefault s n c).fields = c.fields := rfl

theorem setDefault_size (s n : ℕ) (c : PointCloud) : (setDefault s n c).size = c.size := rfl

theorem storageResize_fields (c : PointCloud) (n : ℕ) : (storageResize c n).fields = c.fields := rfl

theorem storageResize_size (c : PointCloud) (n : ℕ) : (storageResize c n).size = n := rfl

theorem resizeNat_fields (c : PointCloud) (n : ℕ) (skip : Bool) :
    (resizeNat c n skip).fields = c.fields := by
  simp only [resizeNat]
  split <;> rfl

theorem resizeNat_size (c : PointCloud) (n : ℕ) (skip : Bool) :
    (resizeNat c n skip).size = n := by
  simp only [resizeNat]
  split <;> rfl

theorem contains_kInherit (f : Fields) : f.contains kInherit = f.inherit := by
  simp [Fields.contains, kInherit]

theorem fields_ne_kNone_of_xyzs (f : Fields) (hx : f.xyzs = true) : f ≠ kNone := by
  intro h
  rw [h] at hx
  exact absurd hx (by decide)

theorem mkPointCloud_eq_ok (count : ℤ) (f : Fields) (skip : Bool)
    (h1 : f ≠ kNone) (h2 : f.contains kInherit = false) (h3 : 0 ≤ count) :
    mkPointCloud count f skip =
      .ok (if skip then rawCloud count.toNat f
           else setDefault 0 count.toNat (rawCloud count.toNat f)) := by
  unfold mkPointCloud
  rw [if_neg h1, if_neg (by simp [h2]), if_neg (not_lt.mpr h3)]

theorem fillCols_replicate (k : ℕ) (p v : α) :
    fillCols (List.replicate k p) 0 k v = List.replicate k v := by
  induction k with
  | zero => rfl
  | succ n ih => simp [List.replicate_succ, fillCols, ih]

theorem fillCols_append_left (l m : List α) (num : ℕ) (v : α) :
    fillCols (l ++ m) l.length num v = l ++ fillCols m 0 num v := by
  induction l with
  | nil => simp
  | cons x xs ih => simpa [fillCols] using ih

theorem setDefault_rawCloud (n : ℕ) (f : Fields) :
    setDefault 0 n (rawCloud n f) = defaultCloud n f := by
  unfold setDefault rawCloud defaultCloud
  simp only
  split_ifs <;>
    simp_all [fillCols_replicate]

theorem mkPointCloud_ok_defaultCloud (count : ℤ) (f : Fields)
    (h1 : f ≠ kNone) (h2 : f.contains kInherit = false) (h3 : 0 ≤ count) :
    mkPointCloud count f false = .ok (defaultCloud count.toNat f) := by
  rw [mkPointCloud_eq_ok count f false h1 h2 h3, if_neg (by simp), setDefault_rawCloud]

theorem conservativeResizeList_of_length_eq (l : List α) (pad : α) (h : l.length = n) :
    conservativeResizeList l n pad = l := by
  unfold conservativeResizeList
  rw [← h]
  simp

theorem conservativeResizeList_grow (l : List α) (pad : α) (h : l.length ≤ n) :
    conservativeResizeList l n pad = l ++ List.replicate (n - l.length) pad := by
  unfold conservativeResizeList
  rw [List.take_of_length_le h]

theorem conservativeResizeList_shrink (l : List α) (pad : α) (h : n ≤ l.length) :
    conservativeResizeList l n pad = l.take n := by
  unfold conservativeResizeList
  rw [Nat.sub_eq_zero_of_le h]
  simp

theorem resizeNat_noGrow (c : PointCloud) (n : ℕ) (skip : Bool) (h : ¬c.size < n) :
    resizeNat c n skip = storageResize c n := by
  simp only [resizeNat]
  rw [if_neg (by simp [h])]

theorem resizeNat_self (c : PointCloud) (skip : Bool)
    (h1 : c.fields.xyzs = true → c.xyzs.length = c.size)
    (h2 : c.fields.normals = true → c.normals.length = c.size)
    (h3 : c.fields.rgbs = true → c.rgbs.length = c.size)
    (h4 : c.fields.hasDescriptor = true → c.descriptors.length = c.size) :
    resizeNat c c.size skip = c := by
  rw [resizeNat_noGrow c c.size skip (lt_irrefl _)]
  unfold storageResize
  cases c with
  | mk f sz xs ns rs ds =>
    simp only [PointCloud.mk.injEq, true_and]
    refine ⟨?_, ?_, ?_, ?_⟩ <;> split_ifs with h <;>
      simp_all [conservativeResizeList_of_length_eq]

theorem setFromCopy_fst_fields (a b : PointCloud) (f : Fields) :
    (setFromCopy a b f).1.fields = a.fields := by
  unfold setFromCopy
  cases resolvePairFields a b f <;> rfl

theorem setFromCopy_fst_size (a b : PointCloud) (f : Fields) :
    (setFromCopy a b f).1.size = a.size := by
  unfold setFromCopy
  cases resolvePairFields a b f <;> rfl

theorem setFromCopy_err_eq (a b : PointCloud) (f : Fields)
    (h : (setFromCopy a b f).2.isSome = true) : (setFromCopy a b f).1 = a := by
  unfold setFromCopy at h ⊢
  cases hr : resolvePairFields a b f with
  | error e => rfl
  | ok fr => rw [hr] at h; simp at h

/-- C1: the claim says `Concatenate` lays the inputs' data out contiguously —
in particular for field set `{Positions}` with sizes 3 and 2, the first 3
position columns of the size-5 result equal `A`'s and the last 2 equal `B`'s.
The code instead guards the position copy with `new_cloud.has_normals()`
(a copy-paste defect the spec itself flags as a bug in its design notes), so
for a positions-only field set no position data is copied at all: the result
has size 5 but every position column is left uninitialized, which differs
from `A`'s and `B`'s columns laid out in order. -/
theorem C1_concatenate_skips_positions :
    exA.size = 3 ∧ exB.size = 2 ∧ exA.fields = kXYZs ∧ exB.fields = kXYZs ∧
    concatenate [exA, exB] =
      .ok ⟨kXYZs, 5, List.replicate 5 undefV, [], [], []⟩ ∧
    List.replicate 5 undefV ≠ exA.xyzs ++ exB.xyzs := by
  refine ⟨rfl, rfl, rfl, rfl, rfl, by decide⟩

/-- C8: construction fails exactly when the field set is the `None` sentinel,
the field set contains the `Inherit` sentinel, or the count is negative; in
every other case it succeeds with `size() = count` and the requested fields. -/
theorem C8_construction (count : ℤ) (f : Fields) (skip : Bool) :
    ((f = kNone ∨ f.contains kInherit = true ∨ count < 0) →
      ∃ e, mkPointCloud count f skip = .error e) ∧
    (f ≠ kNone → f.contains kInherit = false → 0 ≤ count →
      ∃ c, mkPointCloud count f skip = .ok c ∧ (c.size : ℤ) = count ∧ c.fields = f) := by
  constructor
  · intro h
    unfold mkPointCloud
    by_cases h1 : f = kNone
    · exact ⟨_, by rw [if_pos h1]⟩
    · rw [if_neg h1]
      by_cases h2 : f.contains kInherit = true
      · exact ⟨_, by rw [if_pos h2]⟩
      · rw [if_neg h2]
        have h3 : count < 0 := by
          rcases h with h | h | h
          · exact absurd h h1
          · exact absurd h h2
          · exact h
        exact ⟨_, by rw [if_pos h3]⟩
  · intro hN hI hc
    refine ⟨_, mkPointCloud_eq_ok count f skip hN hI hc, ?_, ?_⟩
    · have : (if skip then rawCloud count.toNat f
          else setDefault 0 count.toNat (rawCloud count.toNat f)).size = count.toNat := by
        split_ifs <;> rfl
      rw [this, Int.toNat_of_nonneg hc]
    · split_ifs <;> rfl

/-- C8 witness: a concrete success (count 4, Positions) and a concrete
failure (count `-1`). -/
theorem C8_construction_witness :
    (∃ c, mkPointCloud 4 kXYZs false = .ok c ∧ (c.size : ℤ) = 4 ∧ c.fields = kXYZs) ∧
    (∃ e, mkPointCloud (-1) kXYZs false = .error e) :=
  ⟨(C8_construction 4 kXYZs false).2 (by decide) (by decide) (by decide),
    (C8_construction (-1) kXYZs false).1 (Or.inr (Or.inr (by decide)))⟩

theorem setFrom_fst_fields (a b : PointCloud) (f : Fields) (ar : Bool) :
    (setFrom a b f ar).1.fields = a.fields := by
  cases ar
  · unfold setFrom
    rw [if_neg (by simp)]
    by_cases hs : b.size ≠ a.size
    · rw [if_pos hs]
    · rw [if_neg hs]
      exact setFromCopy_fst_fields a b f
  · unfold setFrom
    rw [if_pos rfl, setFromCopy_fst_fields, resizeNat_fields]

/-- C3 counterexample: `SetFrom` with `allow_resize=true` on clouds with
mismatched field sets throws, yet the receiving cloud has already been
resized from 1 to 2 points — its size and data visibly changed, contrary to
the claim that every failing `SetFrom` leaves the receiver unchanged. -/
theorem C3_setFrom_counterexample :
    (setFrom exPos1 exXN2 kInherit true).2 = some Err.fieldMismatch ∧
    exPos1.size = 1 ∧
    (setFrom exPos1 exXN2 kInherit true).1.size = 2 ∧
    (setFrom exPos1 exXN2 kInherit true).1 ≠ exPos1 := by
  refine ⟨rfl, rfl, rfl, by decide⟩

/-- C3 (amended): every failing `SetFrom` with `allow_resize=false` (size
mismatch, or any field-resolution failure) leaves the receiving cloud
bit-for-bit unchanged; with `allow_resize=true` the receiver is resized to
the source's size *before* field resolution, so a failing field-set or
containment check leaves the receiver in the resized state — its size and
data change whenever the two sizes differed. -/
theorem C3_setFrom_atomicity (a b : PointCloud) (f : Fields) :
    ((setFrom a b f false).2.isSome = true → (setFrom a b f false).1 = a) ∧
    ((setFrom a b f true).2.isSome = true →
      (setFrom a b f true).1 = resizeNat a b.size false) := by
  constructor
  · intro h
    unfold setFrom at h ⊢
    rw [if_neg (by simp)] at h ⊢
    by_cases hs : b.size ≠ a.size
    · rw [if_pos hs]
    · rw [if_neg hs] at h ⊢
      exact setFromCopy_err_eq a b f h
  · intro h
    unfold setFrom at h ⊢
    rw [if_pos rfl] at h ⊢
    exact setFromCopy_err_eq _ b f h

/-- C3 witness: a failing `SetFrom` with `allow_resize=false` (differing
sizes) leaves the concrete receiver unchanged. -/
theorem C3_setFrom_witness :
    (setFrom exPos1 exXN2 kInherit false).2.isSome = true ∧
    (setFrom exPos1 exXN2 kInherit false).1 = exPos1 :=
  ⟨by decide, (C3_setFrom_atomicity exPos1 exXN2 kInherit).1 (by decide)⟩

/-- C6: move-assignment fails with a field-set mismatch error whenever the
field sets are not exactly equal; with exactly equal field sets it succeeds,
the receiver takes the source's size and buffers, and the source becomes a
valid zero-size cloud that keeps its original field set (every present buffer
truncated to zero columns). -/
theorem C6_move_assign (a b : PointCloud) :
    (a.fields ≠ b.fields → moveAssign a b = .error Err.fieldMismatch) ∧
    (a.fields = b.fields →
      moveAssign a b =
        .ok (⟨a.fields, b.size, b.xyzs, b.normals, b.rgbs, b.descriptors⟩,
          ⟨b.fields, 0,
            if b.fields.xyzs then [] else a.xyzs,
            if b.fields.normals then [] else a.normals,
            if b.fields.rgbs then [] else a.rgbs,
            if b.fields.hasDescriptor then [] else a.descriptors⟩)) := by
  constructor
  · intro h
    unfold moveAssign requireExactFields
    rw [if_neg h]
  · intro h
    unfold moveAssign requireExactFields
    rw [if_pos h]
    simp only [resizeNat, storageResize]
    rw [if_neg (by simp)]
    simp [conservativeResizeList, h]

/-- C6 witness: the spec's example — moving a `{Positions, Colors}` cloud
into a receiver with a different field set fails; with the matching field set
it succeeds and empties the source. -/
theorem C6_move_assign_witness :
    moveAssign exMA exA = .error Err.fieldMismatch ∧
    moveAssign exMA exMB =
      .ok (⟨fPosColor, 2, [qv 1 1 1, qv 2 2 2], [], [qv 0 0 0, qv 5 5 5], []⟩,
        ⟨fPosColor, 0, [], [], [], []⟩) := by
  constructor
  · exact (C6_move_assign exMA exA).1 (by decide)
  · rw [(C6_move_assign exMA exMB).2 (by decide)]
    rfl

/-- C9: the field set chosen at construction is invariant: copy-assignment
from a cloud with a different field set throws a field-set mismatch (never
replaces the receiver's field set), and `SetFrom`, `resize`, and
move-assignment all leave the operand field sets unchanged. -/
theorem C9_field_set_invariant (a b : PointCloud) :
    (a.fields ≠ b.fields → (copyAssign a b).2 = some Err.fieldMismatch) ∧
    (copyAssign a b).1.fields = a.fields ∧
    (∀ f ar, (setFrom a b f ar).1.fields = a.fields) ∧
    (∀ n skip, (resizeNat a n skip).fields = a.fields) ∧
    (∀ r, moveAssign a b = .ok r → r.1.fields = a.fields ∧ r.2.fields = b.fields) := by
  refine ⟨?_, setFrom_fst_fields a b kInherit true, fun f ar => setFrom_fst_fields a b f ar,
    fun n skip => resizeNat_fields a n skip, ?_⟩
  · intro h
    unfold copyAssign setFrom
    rw [if_pos rfl]
    unfold setFromCopy resolvePairFields requireExactFields
    rw [if_pos rfl, resizeNat_fields, if_neg h]
  · intro r hr
    unfold moveAssign requireExactFields at hr
    by_cases h : a.fields = b.fields
    · rw [if_pos h] at hr
      simp only [Except.ok.injEq] at hr
      subst hr
      exact ⟨rfl, resizeNat_fields _ 0 false⟩
    · rw [if_neg h] at hr
      exact absurd hr (by simp)

/-- C9 witness: copy-assigning a `{Positions, Normals}` cloud into a
positions-only receiver reports a field mismatch and leaves the receiver's
field set intact. -/
theorem C9_field_set_invariant_witness :
    (copyAssign exPos1 exXN2).2 = some Err.fieldMismatch ∧
    (copyAssign exPos1 exXN2).1.fields = exPos1.fields :=
  ⟨(C9_field_set_invariant exPos1 exXN2).1 (by decide),
    (C9_field_set_invariant exPos1 exXN2).2.1⟩

theorem defaultCloud_size (n : ℕ) (f : Fields) : (defaultCloud n f).size = n := rfl

theorem defaultCloud_fields (n : ℕ) (f : Fields) : (defaultCloud n f).fields = f := rfl

theorem resizeNat_defaultCloud_self (n : ℕ) (f : Fields) (skip : Bool) :
    resizeNat (defaultCloud n f) n skip = defaultCloud n f := by
  have := resizeNat_self (defaultCloud n f) skip
    (by intro hx; simp_all [defaultCloud])
    (by intro hn; simp_all [defaultCloud])
    (by intro hr; simp_all [defaultCloud])
    (by intro hd; simp_all [defaultCloud])
  simpa using this

theorem pointCloudCopy_reduce_ok (other : PointCloud) (g : Fields) (dc out : PointCloud)
    (h1 : mkPointCloud (other.size : ℤ) (resolveFields other g) false = .ok dc)
    (h2 : setFrom dc other kInherit true = (out, none)) :
    pointCloudCopy other g = .ok out := by
  unfold pointCloudCopy
  rw [h1]
  show (match setFrom dc other kInherit true with
        | (c', none) => Except.ok c'
        | (_, some e) => Except.error e) = Except.ok out
  rw [h2]

theorem pointCloudCopy_reduce_err (other : PointCloud) (g : Fields) (dc bad : PointCloud)
    (e : Err) (h1 : mkPointCloud (other.size : ℤ) (resolveFields other g) false = .ok dc)
    (h2 : setFrom dc other kInherit true = (bad, some e)) :
    pointCloudCopy other g = .error e := by
  unfold pointCloudCopy
  rw [h1]
  show (match setFrom dc other kInherit true with
        | (c', none) => Except.ok c'
        | (_, some e) => Except.error e) = Except.error e
  rw [h2]

theorem resolveFields_self (other : PointCloud) :
    resolveFields other other.fields = other.fields := by
  unfold resolveFields
  split <;> rfl

theorem setFromCopy_inherit_ok (a b : PointCloud) (h : a.fields = b.fields) :
    setFromCopy a b kInherit =
      ({ a with
          xyzs := if a.fields.xyzs then b.xyzs else a.xyzs
          normals := if a.fields.normals then b.normals else a.normals
          rgbs := if a.fields.rgbs then b.rgbs else a.rgbs
          descriptors := if a.fields.hasDescriptor then b.descriptors else a.descriptors },
        none) := by
  unfold setFromCopy resolvePairFields requireExactFields
  rw [if_pos rfl, if_pos h]

theorem setFromCopy_inherit_err (a b : PointCloud) (h : a.fields ≠ b.fields) :
    setFromCopy a b kInherit = (a, some Err.fieldMismatch) := by
  unfold setFromCopy resolvePairFields requireExactFields
  rw [if_pos rfl, if_neg h]

theorem setFrom_defaultCloud_inherit (other : PointCloud) (g : Fields) :
    setFrom (defaultCloud other.size g) other kInherit true =
      setFromCopy (defaultCloud other.size g) other kInherit := by
  unfold setFrom
  rw [if_pos rfl, show other.size = (defaultCloud other.size g).size from rfl,
    resizeNat_defaultCloud_self]

/-- C2 counterexample: the claim says copy-construction succeeds whenever the
requested field set is a subset of `other`'s; here `{Positions}` is a strict
subset of `{Positions, Normals}`, yet the copy constructor throws
`FieldMismatch` (its internal `SetFrom` runs in `Inherit` mode, which demands
exactly equal field sets). -/
theorem C2_copy_subset_counterexample :
    exXN1.fields.contains kXYZs = true ∧ kXYZs ≠ exXN1.fields ∧
    pointCloudCopy exXN1 kXYZs = .error Err.fieldMismatch := by
  refine ⟨by decide, by decide, rfl⟩

/-- C2 (amended): copy-construction succeeds exactly when the requested field
set is the `Inherit` sentinel (which copies `other`'s exact field set) or
equals `other`'s field set; it then produces a cloud of `other`'s size fully
populated from `other`.  For every other concrete requestable field set —
including proper subsets of `other`'s fields — the construction fails with
`FieldMismatch`, because the internal `SetFrom` call runs in `Inherit` mode
and demands exact field-set equality. -/
theorem C2_copy_construction (other : PointCloud) (f : Fields)
    (hN : other.fields ≠ kNone) (hI : other.fields.contains kInherit = false) :
    (pointCloudCopy other kInherit = pointCloudCopy other other.fields) ∧
    (∃ out, pointCloudCopy other other.fields = .ok out ∧
      out.fields = other.fields ∧ out.size = other.size ∧
      (other.fields.xyzs = true → out.xyzs = other.xyzs) ∧
      (other.fields.normals = true → out.normals = other.normals) ∧
      (other.fields.rgbs = true → out.rgbs = other.rgbs) ∧
      (other.fields.hasDescriptor = true → out.descriptors = other.descriptors)) ∧
    (f ≠ kInherit → f ≠ kNone → f.contains kInherit = false → f ≠ other.fields →
      pointCloudCopy other f = .error Err.fieldMismatch) := by
  refine ⟨?_, ?_, ?_⟩
  · unfold pointCloudCopy
    rw [show resolveFields other kInherit = other.fields from if_pos rfl,
      resolveFields_self]
  · have h1 : mkPointCloud (other.size : ℤ) (resolveFields other other.fields) false =
        .ok (defaultCloud other.size other.fields) := by
      rw [resolveFields_self]
      have := mkPointCloud_ok_defaultCloud (other.size : ℤ) other.fields hN hI
        (by positivity)
      simpa using this
    have h2 := setFromCopy_inherit_ok (defaultCloud other.size other.fields) other rfl
    refine ⟨_, pointCloudCopy_reduce_ok other other.fields _ _ h1
      ((setFrom_defaultCloud_inherit other other.fields).trans h2), rfl, rfl, ?_, ?_, ?_, ?_⟩
      <;> intro h <;> simp_all [defaultCloud_fields]
  · intro hf1 hf2 hf3 hf4
    have h1 : mkPointCloud (other.size : ℤ) (resolveFields other f) false =
        .ok (defaultCloud other.size f) := by
      rw [show resolveFields other f = f from if_neg hf1]
      have := mkPointCloud_ok_defaultCloud (other.size : ℤ) f hf2 hf3 (by positivity)
      simpa using this
    have h2 := setFromCopy_inherit_err (defaultCloud other.size f) other
      (by simpa [defaultCloud_fields] using hf4)
    exact pointCloudCopy_reduce_err other f _ _ _ h1
      ((setFrom_defaultCloud_inherit other f).trans h2)

/-- C2 witness: copy-constructing with `other`'s exact field set (and with
`Inherit`) from a concrete `{Positions, Normals}` cloud succeeds fully
populated, while the strictly smaller field set `{Positions}` fails. -/
theorem C2_copy_construction_witness :
    (pointCloudCopy exXN1 kInherit = pointCloudCopy exXN1 exXN1.fields) ∧
    (∃ out, pointCloudCopy exXN1 exXN1.fields = .ok out ∧
      out.fields = exXN1.fields ∧ out.size = exXN1.size ∧
      (exXN1.fields.xyzs = true → out.xyzs = exXN1.xyzs) ∧
      (exXN1.fields.normals = true → out.normals = exXN1.normals) ∧
      (exXN1.fields.rgbs = true → out.rgbs = exXN1.rgbs) ∧
      (exXN1.fields.hasDescriptor = true → out.descriptors = exXN1.descriptors)) ∧
    pointCloudCopy exXN1 kXYZs = .error Err.fieldMismatch := by
  obtain ⟨h1, h2, h3⟩ := C2_copy_construction exXN1 kXYZs (by decide) (by decide)
  exact ⟨h1, h2, h3 (by decide) (by decide) (by decide) (by decide)⟩

theorem growCol (l : List α) (pad v : α) (sz n : ℕ) (hlen : l.length = sz) (h : sz ≤ n) :
    fillCols (conservativeResizeList l n pad) sz (n - sz) v =
      l ++ List.replicate (n - sz) v := by
  subst hlen
  rw [conservativeResizeList_grow l pad h, fillCols_append_left, fillCols_replicate]

theorem resizeNat_grow_xyzs (c : PointCloud) (n : ℕ) (h : c.size ≤ n)
    (hx : c.fields.xyzs = true) (hlen : c.xyzs.length = c.size) :
    (resizeNat c n false).xyzs = c.xyzs ++ List.replicate (n - c.size) defaultV := by
  by_cases hlt : c.size < n
  · simp only [resizeNat, storageResize, setDefault]
    rw [if_pos (by simp [hlt])]
    simp only [hx, if_true]
    exact growCol c.xyzs undefV defaultV c.size n hlen h
  · have heq : c.size = n := le_antisymm h (not_lt.mp hlt)
    rw [resizeNat_noGrow c n false hlt]
    simp only [storageResize, hx, if_true]
    rw [conservativeResizeList_of_length_eq c.xyzs undefV (heq ▸ hlen), heq]
    simp

theorem resizeNat_grow_normals (c : PointCloud) (n : ℕ) (h : c.size ≤ n)
    (hx : c.fields.normals = true) (hlen : c.normals.length = c.size) :
    (resizeNat c n false).normals = c.normals ++ List.replicate (n - c.size) defaultV := by
  by_cases hlt : c.size < n
  · simp only [resizeNat, storageResize, setDefault]
    rw [if_pos (by simp [hlt])]
    simp only [hx, if_true]
    exact growCol c.normals undefV defaultV c.size n hlen h
  · have heq : c.size = n := le_antisymm h (not_lt.mp hlt)
    rw [resizeNat_noGrow c n false hlt]
    simp only [storageResize, hx, if_true]
    rw [conservativeResizeList_of_length_eq c.normals undefV (heq ▸ hlen), heq]
    simp

theorem resizeNat_grow_rgbs (c : PointCloud) (n : ℕ) (h : c.size ≤ n)
    (hx : c.fields.rgbs = true) (hlen : c.rgbs.length = c.size) :
    (resizeNat c n false).rgbs = c.rgbs ++ List.replicate (n - c.size) defaultColorV := by
  by_cases hlt : c.size < n
  · simp only [resizeNat, storageResize, setDefault]
    rw [if_pos (by simp [hlt])]
    simp only [hx, if_true]
    exact growCol c.rgbs undefV defaultColorV c.size n hlen h
  · have heq : c.size = n := le_antisymm h (not_lt.mp hlt)
    rw [resizeNat_noGrow c n false hlt]
    simp only [storageResize, hx, if_true]
    rw [conservativeResizeList_of_length_eq c.rgbs undefV (heq ▸ hlen), heq]
    simp

theorem resizeNat_grow_descriptors (c : PointCloud) (n : ℕ) (h : c.size ≤ n)
    (hx : c.fields.hasDescriptor = true) (hlen : c.descriptors.length = c.size) :
    (resizeNat c n false).descriptors = c.descriptors ++
      List.replicate (n - c.size) (List.replicate c.fields.descriptorDim kDefaultValue) := by
  by_cases hlt : c.size < n
  · simp only [resizeNat, storageResize, setDefault]
    rw [if_pos (by simp [hlt])]
    simp only [hx, if_true]
    exact growCol c.descriptors (List.replicate c.fields.descriptorDim Val.undef)
      (List.replicate c.fields.descriptorDim kDefaultValue) c.size n hlen h
  · have heq : c.size = n := le_antisymm h (not_lt.mp hlt)
    rw [resizeNat_noGrow c n false hlt]
    simp only [storageResize, hx, if_true]
    rw [conservativeResizeList_of_length_eq c.descriptors _ (heq ▸ hlen), heq]
    simp

theorem resizeNat_shrink_xyzs (c : PointCloud) (n : ℕ) (skip : Bool) (h : n ≤ c.size)
    (hx : c.fields.xyzs = true) (hlen : c.xyzs.length = c.size) :
    (resizeNat c n skip).xyzs = c.xyzs.take n := by
  rw [resizeNat_noGrow c n skip (not_lt.mpr h)]
  simp only [storageResize, hx, if_true]
  exact conservativeResizeList_shrink c.xyzs undefV (hlen ▸ h)

theorem resizeNat_shrink_normals (c : PointCloud) (n : ℕ) (skip : Bool) (h : n ≤ c.size)
    (hx : c.fields.normals = true) (hlen : c.normals.length = c.size) :
    (resizeNat c n skip).normals = c.normals.take n := by
  rw [resizeNat_noGrow c n skip (not_lt.mpr h)]
  simp only [storageResize, hx, if_true]
  exact conservativeResizeList_shrink c.normals undefV (hlen ▸ h)

theorem resizeNat_shrink_rgbs (c : PointCloud) (n : ℕ) (skip : Bool) (h : n ≤ c.size)
    (hx : c.fields.rgbs = true) (hlen : c.rgbs.length = c.size) :
    (resizeNat c n skip).rgbs = c.rgbs.take n := by
  rw [resizeNat_noGrow c n skip (not_lt.mpr h)]
  simp only [storageResize, hx, if_true]
  exact conservativeResizeList_shrink c.rgbs undefV (hlen ▸ h)

theorem resizeNat_shrink_descriptors (c : PointCloud) (n : ℕ) (skip : Bool) (h : n ≤ c.size)
    (hx : c.fields.hasDescriptor = true) (hlen : c.descriptors.length = c.size) :
    (resizeNat c n skip).descriptors = c.descriptors.take n := by
  rw [resizeNat_noGrow c n skip (not_lt.mpr h)]
  simp only [storageResize, hx, if_true]
  exact conservativeResizeList_shrink c.descriptors _ (hlen ▸ h)

/-- C7: construction without `skip_initialize` fills every present field's
columns with the documented default (zero vector for Positions, Normals and
Descriptors; the documented default color for Colors); growing via `resize`
(and `Expand`, which delegates to it) without `skip_initialize` default-fills
exactly the added columns while keeping the retained ones unchanged; and a
shrink keeps the retained first `n` columns unchanged. -/
theorem C7_default_initialization :
    (∀ (count : ℤ) (f : Fields) (c : PointCloud),
      mkPointCloud count f false = .ok c →
        (c.fields.xyzs = true → c.xyzs = List.replicate c.size defaultV) ∧
        (c.fields.normals = true → c.normals = List.replicate c.size defaultV) ∧
        (c.fields.rgbs = true → c.rgbs = List.replicate c.size defaultColorV) ∧
        (c.fields.hasDescriptor = true →
          c.descriptors =
            List.replicate c.size (List.replicate c.fields.descriptorDim kDefaultValue))) ∧
    (∀ (c : PointCloud) (n : ℕ), c.size ≤ n →
      (c.fields.xyzs = true → c.xyzs.length = c.size →
        (resizeNat c n false).xyzs = c.xyzs ++ List.replicate (n - c.size) defaultV) ∧
      (c.fields.normals = true → c.normals.length = c.size →
        (resizeNat c n false).normals = c.normals ++ List.replicate (n - c.size) defaultV) ∧
      (c.fields.rgbs = true → c.rgbs.length = c.size →
        (resizeNat c n false).rgbs = c.rgbs ++ List.replicate (n - c.size) defaultColorV) ∧
      (c.fields.hasDescriptor = true → c.descriptors.length = c.size →
        (resizeNat c n false).descriptors = c.descriptors ++
          List.replicate (n - c.size) (List.replicate c.fields.descriptorDim kDefaultValue))) ∧
    (∀ (c : PointCloud) (n : ℕ) (skip : Bool), n ≤ c.size →
      (c.fields.xyzs = true → c.xyzs.length = c.size →
        (resizeNat c n skip).xyzs = c.xyzs.take n) ∧
      (c.fields.normals = true → c.normals.length = c.size →
        (resizeNat c n skip).normals = c.normals.take n) ∧
      (c.fields.rgbs = true → c.rgbs.length = c.size →
        (resizeNat c n skip).rgbs = c.rgbs.take n) ∧
      (c.fields.hasDescriptor = true → c.descriptors.length = c.size →
        (resizeNat c n skip).descriptors = c.descriptors.take n)) ∧
    (∀ (c : PointCloud) (add : ℤ), 0 ≤ add →
      expand c add false = .ok (resizeNat c (c.size + add.toNat) false)) := by
  refine ⟨?_, ?_, ?_, ?_⟩
  · intro count f c h
    by_cases h1 : f = kNone
    · rw [mkPointCloud, if_pos h1] at h
      exact absurd h (by simp)
    by_cases h2 : f.contains kInherit = true
    · rw [mkPointCloud, if_neg h1, if_pos h2] at h
      exact absurd h (by simp)
    by_cases h3 : count < 0
    · rw [mkPointCloud, if_neg h1, if_neg h2, if_pos h3] at h
      exact absurd h (by simp)
    rw [mkPointCloud_ok_defaultCloud count f h1 (by simpa using h2) (not_lt.mp h3)] at h
    obtain rfl : defaultCloud count.toNat f = c := by
      injection h
    refine ⟨?_, ?_, ?_, ?_⟩ <;> intro hp <;>
      simp_all [defaultCloud, defaultCloud_fields]
  · intro c n h
    exact ⟨resizeNat_grow_xyzs c n h, resizeNat_grow_normals c n h,
      resizeNat_grow_rgbs c n h, resizeNat_grow_descriptors c n h⟩
  · intro c n skip h
    exact ⟨resizeNat_shrink_xyzs c n skip h, resizeNat_shrink_normals c n skip h,
      resizeNat_shrink_rgbs c n skip h, resizeNat_shrink_descriptors c n skip h⟩
  · intro c add h
    unfold expand
    rw [if_neg (not_lt.mpr h)]

/-- C7 witness: constructing 2 points with `{Positions,Normals}` yields
default-filled columns, and growing a concrete 1-point positions-only cloud
to 3 points appends two default columns while keeping the first column. -/
theorem C7_default_initialization_witness :
    (∃ c, mkPointCloud 2 fXN false = .ok c ∧
      (c.fields.xyzs = true → c.xyzs = List.replicate c.size defaultV)) ∧
    (resizeNat exPos1 3 false).xyzs = exPos1.xyzs ++ List.replicate 2 defaultV ∧
    (resizeNat exPos1 0 true).xyzs = exPos1.xyzs.take 0 := by
  refine ⟨⟨defaultCloud 2 fXN, rfl, (C7_default_initialization.1 2 fXN _ rfl).1⟩, ?_, ?_⟩
  · exact (C7_default_initialization.2.1 exPos1 3 (by decide)).1 (by decide) (by decide)
  · exact (C7_default_initialization.2.2.1 exPos1 0 true (by decide)).1 (by decide) (by decide)

theorem inBox_eq_true_iff (v : Vec3) (lo hi : ℚ × ℚ × ℚ) :
    inBox v lo hi = true ↔
      ∃ p, v.fin? = some p ∧ lo.1 ≤ p.1 ∧ p.1 ≤ hi.1 ∧ lo.2.1 ≤ p.2.1 ∧
        p.2.1 ≤ hi.2.1 ∧ lo.2.2 ≤ p.2.2 ∧ p.2.2 ≤ hi.2.2 := by
  unfold inBox
  cases hf : v.fin? with
  | none => simp
  | some p =>
    simp only [hf, Option.some.injEq, Bool.and_eq_true, decide_eq_true_eq]
    constructor
    · rintro ⟨⟨⟨⟨⟨a, b⟩, d⟩, e⟩, g⟩, i⟩
      exact ⟨p, rfl, a, b, d, e, g, i⟩
    · rintro ⟨p', hp', a, b, d, e, g, i⟩
      cases hp'
      exact ⟨⟨⟨⟨⟨a, b⟩, d⟩, e⟩, g⟩, i⟩

theorem crop_eq_ok (c : PointCloud) (lo hi : ℚ × ℚ × ℚ)
    (h1 : lo.1 ≤ hi.1) (h2 : lo.2.1 ≤ hi.2.1) (h3 : lo.2.2 ≤ hi.2.2)
    (hx : c.fields.xyzs = true) (hin : c.fields.inherit = false) :
    crop c lo hi = .ok
      { fields := c.fields
        size := ((List.range c.size).filter (fun i => inBox (ptOf c i) lo hi)).length
        xyzs := ((List.range c.size).filter (fun i => inBox (ptOf c i) lo hi)).map
          (fun i => ptOf c i)
        normals :=
          if c.fields.normals then
            ((List.range c.size).filter (fun i => inBox (ptOf c i) lo hi)).map
              (fun i => c.normals.getD i undefV)
          else []
        rgbs :=
          if c.fields.rgbs then
            ((List.range c.size).filter (fun i => inBox (ptOf c i) lo hi)).map
              (fun i => c.rgbs.getD i undefV)
          else []
        descriptors :=
          if c.fields.hasDescriptor then
            ((List.range c.size).filter (fun i => inBox (ptOf c i) lo hi)).map
              (fun i => c.descriptors.getD i [])
          else [] } := by
  unfold crop
  rw [if_neg (by simp [h1, h2, h3]), if_neg (by simp [hx]),
    mkPointCloud_eq_ok _ _ true (fields_ne_kNone_of_xyzs c.fields hx)
      (by rw [contains_kInherit]; exact hin) (by positivity)]
  show Except.ok _ = Except.ok _
  rw [if_pos rfl]
  simp only [Except.ok.injEq]
  have hsz : ((c.size : ℤ)).toNat = c.size := by simp
  rw [hsz]
  simp only [PointCloud.mk.injEq, rawCloud]
  refine ⟨trivial, trivial, trivial, ?_, ?_, ?_⟩ <;> split_ifs <;> rfl

/-- C5: with Positions present and componentwise-ordered bounds, `Crop`
returns a new cloud with the same field set holding exactly the points whose
position lies in the closed box `[lower, upper]`, in their original relative
order, with every other present field's column carried along per retained
point; it fails when Positions are absent or when the bounds are unordered
on some component. -/
theorem C5_crop (c : PointCloud) (lo hi : ℚ × ℚ × ℚ) :
    (lo.1 ≤ hi.1 → lo.2.1 ≤ hi.2.1 → lo.2.2 ≤ hi.2.2 → c.fields.xyzs = true →
      c.fields.inherit = false →
      ∃ out, crop c lo hi = .ok out ∧
        out.fields = c.fields ∧
        out.size = ((List.range c.size).filter (fun i => inBox (ptOf c i) lo hi)).length ∧
        out.xyzs = ((List.range c.size).filter (fun i => inBox (ptOf c i) lo hi)).map
          (fun i => ptOf c i) ∧
        (c.fields.normals = true →
          out.normals = ((List.range c.size).filter (fun i => inBox (ptOf c i) lo hi)).map
            (fun i => c.normals.getD i undefV)) ∧
        (c.fields.rgbs = true →
          out.rgbs = ((List.range c.size).filter (fun i => inBox (ptOf c i) lo hi)).map
            (fun i => c.rgbs.getD i undefV)) ∧
        (c.fields.hasDescriptor = true →
          out.descriptors = ((List.range c.size).filter (fun i => inBox (ptOf c i) lo hi)).map
            (fun i => c.descriptors.getD i [])) ∧
        (∀ i, i ∈ (List.range c.size).filter (fun i => inBox (ptOf c i) lo hi) ↔
          i < c.size ∧ ∃ p, (ptOf c i).fin? = some p ∧ lo.1 ≤ p.1 ∧ p.1 ≤ hi.1 ∧
            lo.2.1 ≤ p.2.1 ∧ p.2.1 ≤ hi.2.1 ∧ lo.2.2 ≤ p.2.2 ∧ p.2.2 ≤ hi.2.2) ∧
        ((List.range c.size).filter (fun i => inBox (ptOf c i) lo hi)).Pairwise (· < ·)) ∧
    (c.fields.xyzs = false → lo.1 ≤ hi.1 → lo.2.1 ≤ hi.2.1 → lo.2.2 ≤ hi.2.2 →
      crop c lo hi = .error Err.missingFields) ∧
    ((¬lo.1 ≤ hi.1 ∨ ¬lo.2.1 ≤ hi.2.1 ∨ ¬lo.2.2 ≤ hi.2.2) →
      crop c lo hi = .error Err.demandFailure) := by
  refine ⟨?_, ?_, ?_⟩
  · intro h1 h2 h3 hx hin
    refine ⟨_, crop_eq_ok c lo hi h1 h2 h3 hx hin, rfl, rfl, rfl, ?_, ?_, ?_, ?_, ?_⟩
    · intro h
      rw [if_pos h]
    · intro h
      rw [if_pos h]
    · intro h
      rw [if_pos h]
    · intro i
      rw [List.mem_filter, List.mem_range, inBox_eq_true_iff]
    · exact (List.pairwise_lt_range c.size).sublist (List.filter_sublist _)
  · intro hx h1 h2 h3
    unfold crop
    rw [if_neg (by simp [h1, h2, h3]), if_pos (by simp [hx])]
  · intro h
    unfold crop
    rw [if_pos ?_]
    rcases h with h | h | h <;> simp [h]

/-- C5 witness: the spec's example — cropping the 4-point cloud to the unit
box keeps exactly the 1st, 3rd and 4th points, in that order. -/
theorem C5_crop_witness :
    ∃ out, crop exCrop (0, 0, 0) (1, 1, 1) = .ok out ∧
      out.fields = exCrop.fields ∧ out.size = 3 ∧
      out.xyzs = [qv (mkRat 1 2) (mkRat 1 2) (mkRat 1 2), qv 0 0 0, qv 1 1 1] := by
  obtain ⟨out, hok, hf, hs, hxs, _⟩ :=
    (C5_crop exCrop (0, 0, 0) (1, 1, 1)).1 (by decide) (by decide) (by decide) rfl rfl
  refine ⟨out, hok, hf, ?_, ?_⟩
  · rw [hs]
    decide
  · rw [hxs]
    decide

theorem mapInsert_keys (m : VoxelMap) (k : Key) (i : ℕ) :
    mapKeys (mapInsert m k i) =
      if k ∈ mapKeys m then mapKeys m else mapKeys m ++ [k] := by
  induction m with
  | nil => simp [mapInsert, mapKeys]
  | cons e rest ih =>
    obtain ⟨k', l⟩ := e
    by_cases h : k' = k
    · subst h
      simp [mapInsert, mapKeys]
    · simp only [mapInsert, if_neg h, mapKeys, List.map_cons] at ih ⊢
      rw [ih]
      by_cases hk : k ∈ List.map (fun e => e.1) rest
      · rw [if_pos hk, if_pos (List.mem_cons_of_mem _ hk)]
      · rw [if_neg hk, if_neg (by simp [hk, Ne.symm h]), List.cons_append]

theorem findBucket_insert_self (m : VoxelMap) (k : Key) (i : ℕ) :
    findBucket (mapInsert m k i) k = findBucket m k ++ [i] := by
  induction m with
  | nil => simp [mapInsert, findBucket]
  | cons e rest ih =>
    obtain ⟨k', l⟩ := e
    by_cases h : k' = k
    · subst h
      simp [mapInsert, findBucket]
    · simp [mapInsert, findBucket, h, ih]

theorem findBucket_insert_ne (m : VoxelMap) (k k2 : Key) (i : ℕ) (h : k2 ≠ k) :
    findBucket (mapInsert m k i) k2 = findBucket m k2 := by
  induction m with
  | nil => simp [mapInsert, findBucket, Ne.symm h]
  | cons e rest ih =>
    obtain ⟨k', l⟩ := e
    by_cases hk : k' = k
    · subst hk
      have hne : ¬k' = k2 := fun hh => h hh.symm
      simp [mapInsert, findBucket, hne]
    · by_cases h2 : k' = k2
      · simp [mapInsert, findBucket, hk, h2, h]
      · simp [mapInsert, findBucket, hk, h2, ih]

theorem findBucket_of_mem (m : VoxelMap) (k : Key) (l : List ℕ)
    (hnd : (mapKeys m).Nodup) (hm : (k, l) ∈ m) : findBucket m k = l := by
  induction m with
  | nil => cases hm
  | cons e rest ih =>
    obtain ⟨k', l'⟩ := e
    rcases List.mem_cons.mp hm with heq | hmem
    · obtain ⟨h1, h2⟩ := Prod.mk.injEq .. ▸ heq
      subst h1
      subst h2
      simp [findBucket]
    · have hk : k ≠ k' := by
        intro hh
        subst hh
        have hmem2 : k ∈ mapKeys rest := by
          have := List.mem_map_of_mem (fun e => e.1) hmem
          simpa [mapKeys] using this
        exact (List.nodup_cons.mp (by simpa [mapKeys] using hnd)).1 hmem2
      rw [findBucket, if_neg (Ne.symm hk)]
      exact ih (List.nodup_cons.mp (by simpa [mapKeys] using hnd)).2 hmem

theorem mapInsert_snd_ne_nil (m : VoxelMap) (k : Key) (i : ℕ)
    (h : ∀ e ∈ m, e.2 ≠ []) : ∀ e ∈ mapInsert m k i, e.2 ≠ [] := by
  induction m with
  | nil =>
    intro e he
    simp only [mapInsert, List.mem_singleton] at he
    subst he
    simp
  | cons e0 rest ih =>
    obtain ⟨k', l⟩ := e0
    intro e he
    by_cases hk : k' = k
    · subst hk
      rw [mapInsert, if_pos rfl] at he
      rcases List.mem_cons.mp he with rfl | hmem
      · simp
      · exact h e (List.mem_cons_of_mem _ hmem)
    · rw [mapInsert, if_neg hk] at he
      rcases List.mem_cons.mp he with rfl | hmem
      · exact h _ (List.mem_cons_self _ _)
      · exact ih (fun e' he' => h e' (List.mem_cons_of_mem _ he')) e hmem

theorem buildMap_range_step (κ : ℕ → Option Key) (n : ℕ) :
    buildMap κ (List.range (n + 1)) =
      (match κ n with
       | some k => mapInsert (buildMap κ (List.range n)) k n
       | none => buildMap κ (List.range n)) := by
  unfold buildMap
  rw [List.range_succ, List.foldl_append]
  rfl

theorem voxelBucket_step (κ : ℕ → Option Key) (n : ℕ) (k : Key) :
    voxelBucket κ (n + 1) k =
      voxelBucket κ n k ++ (if κ n = some k then [n] else []) := by
  unfold voxelBucket
  rw [List.range_succ, List.filter_append]
  congr 1
  by_cases h : κ n = some k <;> simp [h]

theorem buildMap_range_spec (κ : ℕ → Option Key) (n : ℕ) :
    (mapKeys (buildMap κ (List.range n))).Nodup ∧
    (∀ k, k ∈ mapKeys (buildMap κ (List.range n)) ↔ ∃ i, i < n ∧ κ i = some k) ∧
    (∀ k, findBucket (buildMap κ (List.range n)) k = voxelBucket κ n k) ∧
    (∀ e ∈ buildMap κ (List.range n), e.2 ≠ []) := by
  induction n with
  | zero =>
    refine ⟨by simp [buildMap, mapKeys], ?_, ?_, by simp [buildMap]⟩
    · intro k
      simp [buildMap, mapKeys]
    · intro k
      simp [buildMap, findBucket, voxelBucket]
  | succ n ih =>
    obtain ⟨ih1, ih2, ih3, ih4⟩ := ih
    rcases hk0 : κ n with _ | k0
    · rw [buildMap_range_step, hk0]
      refine ⟨ih1, ?_, ?_, ih4⟩
      · intro k
        rw [ih2 k]
        constructor
        · rintro ⟨i, hi, hki⟩
          exact ⟨i, Nat.lt_succ_of_lt hi, hki⟩
        · rintro ⟨i, hi, hki⟩
          rcases Nat.lt_succ_iff_lt_or_eq.mp hi with h | rfl
          · exact ⟨i, h, hki⟩
          · rw [hk0] at hki
            cases hki
      · intro k
        rw [ih3 k, voxelBucket_step, hk0]
        simp
    · rw [buildMap_range_step, hk0]
      have hkeys := mapInsert_keys (buildMap κ (List.range n)) k0 n
      refine ⟨?_, ?_, ?_, mapInsert_snd_ne_nil _ k0 n ih4⟩
      · rw [hkeys]
        split_ifs with hmem
        · exact ih1
        · simpa [List.nodup_append] using ⟨ih1, fun h => hmem h⟩
      · intro k
        have hmemIff : k ∈ mapKeys (mapInsert (buildMap κ (List.range n)) k0 n) ↔
            k ∈ mapKeys (buildMap κ (List.range n)) ∨ k = k0 := by
          rw [hkeys]
          split_ifs with hmem
          · constructor
            · exact fun h => Or.inl h
            · rintro (h | rfl)
              · exact h
              · exact hmem
          · simp
        rw [hmemIff, ih2 k]
        constructor
        · rintro (⟨i, hi, hki⟩ | rfl)
          · exact ⟨i, Nat.lt_succ_of_lt hi, hki⟩
          · exact ⟨n, Nat.lt_succ_self n, hk0⟩
        · rintro ⟨i, hi, hki⟩
          rcases Nat.lt_succ_iff_lt_or_eq.mp hi with h | rfl
          · exact Or.inl ⟨i, h, hki⟩
          · rw [hk0] at hki
            injection hki with hki
            exact Or.inr hki.symm
      · intro k
        by_cases hkk : k = k0
        · subst hkk
          rw [findBucket_insert_self, ih3 k, voxelBucket_step, hk0]
          simp
        · rw [findBucket_insert_ne _ _ _ _ hkk, ih3 k, voxelBucket_step, hk0]
          have : ¬(some k0 = some k) := by
            intro hh
            injection hh with hh
            exact hkk hh.symm
          simp [this]

theorem lowerFold_step (f : ℕ → Vec3) (n : ℕ) :
    lowerFold f (n + 1) =
      (match (f n).fin? with
       | some p =>
         match lowerFold f n with
         | none => some p
         | some l => some (min l.1 p.1, min l.2.1 p.2.1, min l.2.2 p.2.2)
       | none => lowerFold f n) := by
  unfold lowerFold
  rw [List.range_succ, List.foldl_append]
  rfl

theorem lowerFold_none (f : ℕ → Vec3) (n : ℕ) (h : lowerFold f n = none) :
    ∀ i < n, (f i).fin? = none := by
  induction n with
  | zero =>
    intro i hi
    exact absurd hi (Nat.not_lt_zero i)
  | succ n ih =>
    rw [lowerFold_step] at h
    cases hf : (f n).fin? with
    | some p =>
      rw [hf] at h
      cases hl : lowerFold f n <;> rw [hl] at h <;> cases h
    | none =>
      rw [hf] at h
      intro i hi
      rcases Nat.lt_succ_iff_lt_or_eq.mp hi with h' | rfl
      · exact ih h i h'
      · exact hf

theorem lowerFold_isLowerBound (f : ℕ → Vec3) (n : ℕ) (l : ℚ × ℚ × ℚ)
    (hl : lowerFold f n = some l) :
    ∀ i < n, ∀ p, (f i).fin? = some p →
      l.1 ≤ p.1 ∧ l.2.1 ≤ p.2.1 ∧ l.2.2 ≤ p.2.2 := by
  induction n generalizing l with
  | zero =>
    intro i hi
    exact absurd hi (Nat.not_lt_zero i)
  | succ n ih =>
    rw [lowerFold_step] at hl
    intro i hi p hp
    cases hfn : (f n).fin? with
    | none =>
      rw [hfn] at hl
      rcases Nat.lt_succ_iff_lt_or_eq.mp hi with h' | rfl
      · exact ih l hl i h' p hp
      · rw [hfn] at hp
        cases hp
    | some p0 =>
      rw [hfn] at hl
      cases hl0 : lowerFold f n with
      | none =>
        rw [hl0] at hl
        injection hl with hl
        subst hl
        rcases Nat.lt_succ_iff_lt_or_eq.mp hi with h' | rfl
        · rw [lowerFold_none f n hl0 i h'] at hp
          cases hp
        · rw [hfn] at hp
          injection hp with hp
          subst hp
          exact ⟨le_refl _, le_refl _, le_refl _⟩
      | some l0 =>
        rw [hl0] at hl
        injection hl with hl
        subst hl
        rcases Nat.lt_succ_iff_lt_or_eq.mp hi with h' | rfl
        · obtain ⟨a, b, d⟩ := ih l0 hl0 i h' p hp
          exact ⟨le_trans (min_le_left _ _) a, le_trans (min_le_left _ _) b,
            le_trans (min_le_left _ _) d⟩
        · rw [hfn] at hp
          injection hp with hp
          subst hp
          exact ⟨min_le_right _ _, min_le_right _ _, min_le_right _ _⟩

theorem lowerFold_attained (f : ℕ → Vec3) (n : ℕ) (l : ℚ × ℚ × ℚ)
    (hl : lowerFold f n = some l) :
    (∃ i, i < n ∧ ∃ p, (f i).fin? = some p ∧ p.1 = l.1) ∧
    (∃ i, i < n ∧ ∃ p, (f i).fin? = some p ∧ p.2.1 = l.2.1) ∧
    (∃ i, i < n ∧ ∃ p, (f i).fin? = some p ∧ p.2.2 = l.2.2) := by
  induction n generalizing l with
  | zero => simp [lowerFold] at hl
  | succ n ih =>
    rw [lowerFold_step] at hl
    cases hfn : (f n).fin? with
    | none =>
      rw [hfn] at hl
      obtain ⟨⟨i1, hi1, w1⟩, ⟨i2, hi2, w2⟩, ⟨i3, hi3, w3⟩⟩ := ih l hl
      exact ⟨⟨i1, Nat.lt_succ_of_lt hi1, w1⟩, ⟨i2, Nat.lt_succ_of_lt hi2, w2⟩,
        ⟨i3, Nat.lt_succ_of_lt hi3, w3⟩⟩
    | some p0 =>
      rw [hfn] at hl
      cases hl0 : lowerFold f n with
      | none =>
        rw [hl0] at hl
        injection hl with hl
        subst hl
        exact ⟨⟨n, Nat.lt_succ_self n, p0, hfn, rfl⟩,
          ⟨n, Nat.lt_succ_self n, p0, hfn, rfl⟩,
          ⟨n, Nat.lt_succ_self n, p0, hfn, rfl⟩⟩
      | some l0 =>
        rw [hl0] at hl
        injection hl with hl
        subst hl
        obtain ⟨⟨i1, hi1, p1, hp1, he1⟩, ⟨i2, hi2, p2, hp2, he2⟩,
          ⟨i3, hi3, p3, hp3, he3⟩⟩ := ih l0 hl0
        refine ⟨?_, ?_, ?_⟩
        · rcases le_total l0.1 p0.1 with hle | hle
          · exact ⟨i1, Nat.lt_succ_of_lt hi1, p1, hp1, by rw [he1, min_eq_left hle]⟩
          · exact ⟨n, Nat.lt_succ_self n, p0, hfn, by rw [min_eq_right hle]⟩
        · rcases le_total l0.2.1 p0.2.1 with hle | hle
          · exact ⟨i2, Nat.lt_succ_of_lt hi2, p2, hp2, by rw [he2, min_eq_left hle]⟩
          · exact ⟨n, Nat.lt_succ_self n, p0, hfn, by rw [min_eq_right hle]⟩
        · rcases le_total l0.2.2 p0.2.2 with hle | hle
          · exact ⟨i3, Nat.lt_succ_of_lt hi3, p3, hp3, by rw [he3, min_eq_left hle]⟩
          · exact ⟨n, Nat.lt_succ_self n, p0, hfn, by rw [min_eq_right hle]⟩

theorem truncQ_of_nonneg (q : ℚ) (h : 0 ≤ q) : truncQ q = ⌊q⌋ := by
  unfold truncQ
  rw [if_pos h]

theorem ratAdd_eq_add (a b : ℚ) : ratAdd a b = a + b := (Rat.add_def' a b).symm

theorem ratSub_eq_sub (a b : ℚ) : ratSub a b = a - b := (Rat.sub_def' a b).symm

theorem ratDiv_eq_div (a b : ℚ) : ratDiv a b = a / b := (Rat.div_def' a b).symm

theorem ratDivNat_eq_div (q : ℚ) (n : ℕ) : ratDivNat q n = q / n := by
  rw [ratDivNat, Rat.mkRat_eq_div]
  push_cast
  rw [div_mul_eq_div_div, Rat.num_div_den]

theorem keyOf_eq_floor (c : PointCloud) (vs : ℚ) (hv : 0 < vs) (i : ℕ) (hi : i < c.size)
    (p : ℚ × ℚ × ℚ) (hp : (ptOf c i).fin? = some p) (l : ℚ × ℚ × ℚ)
    (hl : lowerOf c = some l) :
    keyOf c vs i =
      some (⌊(p.1 - l.1) / vs⌋, ⌊(p.2.1 - l.2.1) / vs⌋, ⌊(p.2.2 - l.2.2) / vs⌋) := by
  obtain ⟨b1, b2, b3⟩ := lowerFold_isLowerBound (ptOf c) c.size l hl i hi p hp
  unfold keyOf
  rw [hp]
  show some _ = some _
  rw [hl]
  simp only [Option.getD_some, Option.some.injEq, Prod.mk.injEq, ratDiv_eq_div,
    ratSub_eq_sub]
  refine ⟨?_, ?_, ?_⟩ <;>
    exact truncQ_of_nonneg _ (div_nonneg (sub_nonneg.mpr (by assumption)) hv.le)

theorem voxelized_ok (c : PointCloud) (vs : ℚ) (hx : c.fields.xyzs = true)
    (hin : c.fields.inherit = false) (hv : 0 < vs) :
    voxelizedDownSample c vs = .ok
      { fields := c.fields
        size := (voxelMapOf c vs).length
        xyzs := (voxelMapOf c vs).map (fun e => bucketPosMean c e.2)
        normals :=
          if c.fields.normals then
            (voxelMapOf c vs).map (fun e => bucketNormalMean c e.2)
          else []
        rgbs :=
          if c.fields.rgbs then
            (voxelMapOf c vs).map (fun e => bucketRgbMean c e.2)
          else []
        descriptors :=
          if c.fields.hasDescriptor then
            (voxelMapOf c vs).map (fun e => bucketDescMean c c.fields.descriptorDim e.2)
          else [] } := by
  unfold voxelizedDownSample
  rw [if_neg (by simp [hx]), if_neg (not_le.mpr hv)]
  show (match mkPointCloud ((voxelMapOf c vs).length : ℤ) c.fields false with
        | .error e => Except.error e
        | .ok ds => Except.ok
            { ds with
              xyzs := (voxelMapOf c vs).map (fun e : Key × List ℕ => bucketPosMean c e.2)
              normals :=
                if c.fields.normals then
                  (voxelMapOf c vs).map (fun e : Key × List ℕ => bucketNormalMean c e.2)
                else ds.normals
              rgbs :=
                if c.fields.rgbs then
                  (voxelMapOf c vs).map (fun e : Key × List ℕ => bucketRgbMean c e.2)
                else ds.rgbs
              descriptors :=
                if c.fields.hasDescriptor then
                  (voxelMapOf c vs).map
                    (fun e : Key × List ℕ => bucketDescMean c c.fields.descriptorDim e.2)
                else ds.descriptors }) = _
  rw [mkPointCloud_ok_defaultCloud _ _ (fields_ne_kNone_of_xyzs c.fields hx)
    (by rw [contains_kInherit]; exact hin) (by positivity)]
  show Except.ok _ = Except.ok _
  simp only [Except.ok.injEq]
  have hsz : ((voxelMapOf c vs).length : ℤ).toNat = (voxelMapOf c vs).length := by simp
  rw [hsz]
  simp only [PointCloud.mk.injEq, defaultCloud]
  refine ⟨trivial, trivial, trivial, ?_, ?_, ?_⟩ <;> split_ifs <;> rfl

/-- C4: `VoxelizedDownSample` fails when Positions are absent or
`voxel_size ≤ 0`; otherwise it succeeds with one output point per occupied
voxel (output order is the map order, one admissible order of the
unspecified hash-map iteration): the occupied voxels are exactly the keys
`floor((position − per-axis minimum over finite positions) / voxel_size)` of
the fully finite points, non-finite points belong to no bucket, and each
output column is the per-bucket mean — positions over the whole bucket,
normals and descriptors over only the fully finite ones, colors over the
whole bucket. -/
theorem C4_voxelized_downsample (c : PointCloud) (vs : ℚ) :
    (c.fields.xyzs = false → voxelizedDownSample c vs = .error Err.missingFields) ∧
    (c.fields.xyzs = true → vs ≤ 0 →
      voxelizedDownSample c vs = .error Err.invalidArgument) ∧
    (c.fields.xyzs = true → c.fields.inherit = false → 0 < vs →
      ∃ out, voxelizedDownSample c vs = .ok out ∧
        out.fields = c.fields ∧
        (mapKeys (voxelMapOf c vs)).Nodup ∧
        out.size = (mapKeys (voxelMapOf c vs)).length ∧
        (∀ k, k ∈ mapKeys (voxelMapOf c vs) ↔ ∃ i, i < c.size ∧ keyOf c vs i = some k) ∧
        out.xyzs = (mapKeys (voxelMapOf c vs)).map
          (fun k => bucketPosMean c (voxelBucket (keyOf c vs) c.size k)) ∧
        (c.fields.normals = true →
          out.normals = (mapKeys (voxelMapOf c vs)).map
            (fun k => bucketNormalMean c (voxelBucket (keyOf c vs) c.size k))) ∧
        (c.fields.rgbs = true →
          out.rgbs = (mapKeys (voxelMapOf c vs)).map
            (fun k => bucketRgbMean c (voxelBucket (keyOf c vs) c.size k))) ∧
        (c.fields.hasDescriptor = true →
          out.descriptors = (mapKeys (voxelMapOf c vs)).map
            (fun k => bucketDescMean c c.fields.descriptorDim
              (voxelBucket (keyOf c vs) c.size k))) ∧
        (∀ i, i < c.size → ∀ p, (ptOf c i).fin? = some p → ∀ l, lowerOf c = some l →
          keyOf c vs i = some (⌊(p.1 - l.1) / vs⌋, ⌊(p.2.1 - l.2.1) / vs⌋,
            ⌊(p.2.2 - l.2.2) / vs⌋)) ∧
        (∀ i, (ptOf c i).fin? = none → keyOf c vs i = none) ∧
        (∀ l, lowerOf c = some l →
          (∀ i, i < c.size → ∀ p, (ptOf c i).fin? = some p →
            l.1 ≤ p.1 ∧ l.2.1 ≤ p.2.1 ∧ l.2.2 ≤ p.2.2) ∧
          (∃ i, i < c.size ∧ ∃ p, (ptOf c i).fin? = some p ∧ p.1 = l.1) ∧
          (∃ i, i < c.size ∧ ∃ p, (ptOf c i).fin? = some p ∧ p.2.1 = l.2.1) ∧
          (∃ i, i < c.size ∧ ∃ p, (ptOf c i).fin? = some p ∧ p.2.2 = l.2.2))) := by
  refine ⟨?_, ?_, ?_⟩
  · intro hx
    unfold voxelizedDownSample
    rw [if_pos (by simp [hx])]
  · intro hx hle
    unfold voxelizedDownSample
    rw [if_neg (by simp [hx]), if_pos hle]
  · intro hx hin hv
    obtain ⟨hnd, hmem, hbuckets, hne⟩ := buildMap_range_spec (keyOf c vs) c.size
    have hentry : ∀ e ∈ voxelMapOf c vs, e.2 = voxelBucket (keyOf c vs) c.size e.1 := by
      intro e he
      rw [← hbuckets e.1, findBucket_of_mem _ e.1 e.2 hnd he]
    have hmap : ∀ {β : Type} (g : List ℕ → β),
        (voxelMapOf c vs).map (fun e => g e.2) =
          (mapKeys (voxelMapOf c vs)).map
            (fun k => g (voxelBucket (keyOf c vs) c.size k)) := by
      intro β g
      rw [mapKeys, List.map_map]
      exact List.map_congr_left (fun e he => by rw [hentry e he]; rfl)
    refine ⟨_, voxelized_ok c vs hx hin hv, rfl, hnd, ?_, hmem, ?_, ?_, ?_, ?_, ?_, ?_, ?_⟩
    · exact (List.length_map _ _).symm
    · exact hmap (fun b => bucketPosMean c b)
    · intro h
      show (if c.fields.normals = true then _ else _) = _
      rw [if_pos h]
      exact hmap (fun b => bucketNormalMean c b)
    · intro h
      show (if c.fields.rgbs = true then _ else _) = _
      rw [if_pos h]
      exact hmap (fun b => bucketRgbMean c b)
    · intro h
      show (if c.fields.hasDescriptor = true then _ else _) = _
      rw [if_pos h]
      exact hmap (fun b => bucketDescMean c c.fields.descriptorDim b)
    · intro i hi p hp l hl
      exact keyOf_eq_floor c vs hv i hi p hp l hl
    · intro i h
      unfold keyOf
      rw [h]
    · intro l hl
      exact ⟨lowerFold_isLowerBound (ptOf c) c.size l hl,
        lowerFold_attained (ptOf c) c.size l hl⟩

/-- C4 witness: the spec's example — points at `x = 0.1` and `0.2` share one
voxel and `x = 5` occupies another, so the output has 2 points, at the means
`x = 0.15` and `x = 5`. -/
theorem C4_voxelized_downsample_witness :
    ∃ out, voxelizedDownSample exVox 1 = .ok out ∧ out.fields = exVox.fields ∧
      out.size = 2 ∧
      out.xyzs = [qv (mkRat 3 20) 0 0, qv 5 0 0] := by
  obtain ⟨out, hok, hf, _, hs, _, hxs, _⟩ :=
    (C4_voxelized_downsample exVox 1).2.2 rfl rfl (by decide)
  refine ⟨out, hok, hf, ?_, ?_⟩
  · rw [hs]
    decide
  · rw [hxs]
    decide

/-- C10: in `VoxelizedDownSample`, when Normals (or a descriptor) are present
but an occupied voxel has no point with a fully finite normal (or
descriptor), the per-voxel average divides the zero accumulator by the zero
count without a guard, so that voxel's output normal (or descriptor column)
is non-finite rather than an error being raised: the call still succeeds. -/
theorem C10_zero_count_average (c : PointCloud) (vs : ℚ)
    (hx : c.fields.xyzs = true) (hin : c.fields.inherit = false) (hv : 0 < vs)
    (j : ℕ) (e : Key × List ℕ) (he : (voxelMapOf c vs)[j]? = some e) :
    ∃ out, voxelizedDownSample c vs = .ok out ∧ e.2 ≠ [] ∧
      (c.fields.normals = true →
        (∀ i ∈ e.2, (c.normals.getD i undefV).isFiniteAll = false) →
        out.normals[j]? = some undefV) ∧
      (∀ d, c.fields.descriptor = some d →
        (∀ i ∈ e.2, ((c.descriptors.getD i []).all Val.isFinite) = false) →
        out.descriptors[j]? = some (List.replicate d Val.undef)) := by
  have hemem : e ∈ voxelMapOf c vs := by
    obtain ⟨hj, hje⟩ := List.getElem?_eq_some.mp he
    exact hje ▸ List.getElem_mem hj
  obtain ⟨hnd, hmem, hbuckets, hne⟩ := buildMap_range_spec (keyOf c vs) c.size
  refine ⟨_, voxelized_ok c vs hx hin hv, hne e hemem, ?_, ?_⟩
  · intro hn hall
    show (if c.fields.normals = true then
        (voxelMapOf c vs).map (fun e => bucketNormalMean c e.2) else [])[j]? = _
    rw [if_pos hn, List.getElem?_map, he]
    show some (bucketNormalMean c e.2) = some undefV
    unfold bucketNormalMean
    have hfil : e.2.filter (fun i => (c.normals.getD i undefV).isFiniteAll) = [] := by
      rw [List.filter_eq_nil_iff]
      intro a ha
      rw [hall a ha]
      exact Bool.false_ne_true
    rw [hfil]
    rfl
  · intro d hd hall
    have hhd : c.fields.hasDescriptor = true := by
      simp [Fields.hasDescriptor, hd]
    show (if c.fields.hasDescriptor = true then
        (voxelMapOf c vs).map (fun e => bucketDescMean c c.fields.descriptorDim e.2)
      else [])[j]? = _
    rw [if_pos hhd, List.getElem?_map, he]
    show some (bucketDescMean c c.fields.descriptorDim e.2) =
      some (List.replicate d Val.undef)
    unfold bucketDescMean
    have hfil : e.2.filter (fun i => (c.descriptors.getD i []).all Val.isFinite) = [] := by
      rw [List.filter_eq_nil_iff]
      intro a ha
      rw [hall a ha]
      exact Bool.false_ne_true
    rw [hfil]
    have hdim : c.fields.descriptorDim = d := by
      simp [Fields.descriptorDim, hd]
    rw [hdim]
    show some (colDivNat (List.replicate d kDefaultValue) 0) =
      some (List.replicate d Val.undef)
    unfold colDivNat
    rw [List.map_replicate]
    rfl

/-- C10 witness: a single point with finite position and a NaN normal — the
sole voxel's normal average is `0/0`, so the output normal is non-finite
while the call succeeds. -/
theorem C10_zero_count_average_witness :
    ∃ out, voxelizedDownSample exNaN 1 = .ok out ∧
      ((((0, 0, 0) : Key), ([0] : List ℕ)).2 ≠ []) ∧
      out.normals[0]? = some undefV := by
  obtain ⟨out, hok, hne, hnorm, _⟩ :=
    C10_zero_count_average exNaN 1 rfl rfl (by decide) 0 ((0, 0, 0), [0]) (by decide)
  exact ⟨out, hok, by decide, hnorm rfl (by decide)⟩
